import Mathlib

/-!
Verification development for the hessfree repository (Hessian-Free
optimization following Martens 2010).

The Go source is shallowly embedded over exact rationals (ℚ stands for
float64; real-number behavior of every branch is kept, and the two places
where IEEE special values matter — division producing NaN/±Inf followed by
comparisons — are modelled explicitly by the `GF` type below).

Parameter-space vectors (`ConstParamDelta` / the solver's deltas) are
modelled as follows:
- for the learner/damping code (`learner.go`), a delta is a list of
  per-variable vectors (`List (List ℚ)`), mirroring the Go map from
  variables to vectors, with the result of the wrapped objective aligned
  variable-by-variable with the delta;
- for the CG solver (`cgSolver`), a delta is a single flat vector
  (`Vec := List ℚ`) over the learner's parameters in a fixed order.
  The `ConstParamDelta` method set (add, scale, dot, magSquared, copy,
  the zero delta) is not part of the provided sources; it is modelled
  from the spec: all operations are pointwise, `dot` is the sum of inner
  products, the empty delta behaves as the zero displacement.

The sgd.SampleSet, autofunc and UI collaborators are external to the core
(spec §1, §6); they are modelled from the spec at their interface
boundary: a sample set by its length (plus a tag so that distinct sets of
equal size exist), the UI cancellation signal as the stream of values its
`ShouldStop` poll returns, and the AD engine by abstract value/directional
derivative functions.
-/

/-- A vector of float64 values (one parameter vector, or a flat
parameter-space delta), modelled over ℚ. -/
abbrev Vec := List ℚ

/-- Modelled from the spec (§4.1, the `ConstParamDelta` method set is not
in the provided sources): in-place `this += scaler * other`, pointwise. -/
def addDelta (v other : Vec) (scaler : ℚ) : Vec :=
  List.zipWith (fun a b => a + scaler * b) v other

/-- Modelled from the spec (§4.1): in-place `this *= factor`, pointwise. -/
def scaleVec (factor : ℚ) (v : Vec) : Vec :=
  v.map fun x => factor * x

/-- Modelled from the spec (§4.1): sum over keys of inner products. -/
def dotVec (a b : Vec) : ℚ :=
  (List.zipWith (fun x y => x * y) a b).sum

/-- Modelled from the spec (§4.1): `dot(self)`. -/
def magSquared (v : Vec) : ℚ :=
  dotVec v v

/-- Modelled from the spec (§4.1): the zero delta over the learner's
parameters (`cgSolver.zeroDelta` builds one zero vector per parameter;
flattened here to one zero vector of the total parameter length). -/
def zeroDelta (paramLen : ℕ) : Vec :=
  List.replicate paramLen 0

/-- Modelled from the spec (§6): an sgd.SampleSet seen through the only
operation this core applies to it, its length; `tag` distinguishes
distinct sets of the same size. -/
structure SampleSet where
  len : ℕ
  tag : ℕ := 0
deriving DecidableEq

/-- A float64 value as produced by one division: either a finite value or
one of the IEEE-754 special values that Go float64 division can produce
(`±Inf` for nonzero/zero, `NaN` for zero/zero). -/
inductive GF where
  | fin (q : ℚ) : GF
  | pinfty : GF
  | ninfty : GF
  | nan : GF
deriving DecidableEq

/-- Go float64 division `a / b` for finite operands: IEEE-754 semantics
(`0/0 = NaN`, `x/0 = ±Inf` by the sign of `x`; a zero produced by
subtraction of finite values is `+0`). -/
def gfDiv (a b : ℚ) : GF :=
  if b = 0 then (if a = 0 then GF.nan else if 0 < a then GF.pinfty else GF.ninfty)
  else GF.fin (a / b)

/-- Go `<` against a finite float64: every comparison with NaN is false. -/
def GF.ltq : GF → ℚ → Bool
  | GF.fin a, q => decide (a < q)
  | GF.ninfty, _ => true
  | _, _ => false

/-- Go `>` against a finite float64: every comparison with NaN is false. -/
def GF.gtq : GF → ℚ → Bool
  | GF.fin a, q => decide (q < a)
  | GF.pinfty, _ => true
  | _, _ => false

/-- Go `int(x)` conversion of a float64: truncation toward zero. -/
def goTrunc (q : ℚ) : ℤ :=
  if q < 0 then -Int.floor (-q) else Int.floor q

/-! ## learner.go: Objective interface, dampedObjective, DampingLearner -/

/-- A delta of `learner.go`'s `ConstParamDelta` kind: one dense vector per
variable, in a fixed variable order shared with the wrapped objective's
results. -/
abbrev ConstParamDelta := List (List ℚ)

/-- The Objective interface as used by `learner.go` (`Quad`, `QuadGrad`,
`QuadHessian`, `Objective`, each taking a delta and a sample set); its
implementations live outside the provided sources, so an objective is an
abstract quadruple of functions. The empty delta `[]` plays the role of
`ConstParamDelta{}`. -/
structure Objective where
  quad : ConstParamDelta → SampleSet → ℚ
  quadGrad : ConstParamDelta → SampleSet → ConstParamDelta
  quadHessian : ConstParamDelta → SampleSet → ConstParamDelta
  objective : ConstParamDelta → SampleSet → ℚ

/-- Translation of `dampedObjective` (learner.go lines 88-133): `Quad`
adds `float64(s.Len()) * x * x` for every entry `x` of the delta to the
wrapped value; `QuadGrad` and `QuadHessian` add `float64(2*s.Len()) * x`
to the corresponding entry of the wrapped result; `Objective` passes
through. Note the stored `Coeff` is never read by any of them. -/
def dampedObjective (WrappedObjective : Objective) (Coeff : ℚ) : Objective where
  quad d s :=
    WrappedObjective.quad d s +
      (d.map fun subDelta => (subDelta.map fun x => (s.len : ℚ) * x * x).sum).sum
  quadGrad d s :=
    List.zipWith
      (fun resVec subDelta =>
        List.zipWith (fun r x => r + (2 * (s.len : ℚ)) * x) resVec subDelta)
      (WrappedObjective.quadGrad d s) d
  quadHessian d s :=
    List.zipWith
      (fun resVec subDelta =>
        List.zipWith (fun r x => r + (2 * (s.len : ℚ)) * x) resVec subDelta)
      (WrappedObjective.quadHessian d s) d
  objective d s := WrappedObjective.objective d s

/-- `DampingLearner.MakeObjective`'s treatment of the coefficient
(learner.go lines 62-64): if `DampingCoeff` is zero it is set to the
default value 1 before the damped objective is built. -/
def dampingMakeCoeff (DampingCoeff : ℚ) : ℚ :=
  if DampingCoeff = 0 then 1 else DampingCoeff

/-- The value `DampingLearner.Adjust` assigns to `realOffset`
(learner.go line 75): `d.lastObjective.Objective(ConstParamDelta{}, s)` —
the true objective at the empty (zero) delta; the `delta` argument is not
used in this expression. -/
def adjustRealOffset (lastObjective : Objective) (delta : ConstParamDelta)
    (s : SampleSet) : ℚ :=
  lastObjective.objective [] s

/-- The trust ratio `DampingLearner.Adjust` computes (learner.go lines
73-78): `(realOffset - centerVal) / (quadOffset - centerVal)` where
`quadOffset = Quad(delta, s)` and both `centerVal` and `realOffset` are
`Objective(ConstParamDelta{}, s)`; the division follows float64
semantics. -/
def trustValue (lastObjective : Objective) (delta : ConstParamDelta)
    (s : SampleSet) : GF :=
  let quadOffset := lastObjective.quad delta s
  let centerVal := lastObjective.objective [] s
  let realOffset := adjustRealOffset lastObjective delta s
  gfDiv (realOffset - centerVal) (quadOffset - centerVal)

/-- The damping coefficient after `DampingLearner.Adjust` (learner.go
lines 79-85): multiply by 3/2 when `trust < 0.25`, by 2/3 when
`trust > 0.75`, otherwise leave unchanged. -/
def dampingAdjustCoeff (lastObjective : Objective) (DampingCoeff : ℚ)
    (delta : ConstParamDelta) (s : SampleSet) : ℚ :=
  let trust := trustValue lastObjective delta s
  if trust.ltq (1/4) then DampingCoeff * (3/2)
  else if trust.gtq (3/4) then DampingCoeff * (2/3)
  else DampingCoeff

/-! ## linearizer (src/unnamed/part_000): Linearizer.LinearBatch -/

/-- An autofunc.RResult held by a `ParamDelta` entry: a value vector and
its directional-derivative vector. -/
structure RRes where
  output : Vec
  routput : Vec

/-- `ParamDelta`: a mapping from variables (opaque handles, here ℕ) to
RResults (part_000 line 11). -/
abbrev ParamDelta := List (ℕ × RRes)

/-- Translation of `ParamDelta.outputRVector` (part_000 lines 15-21): the
RVector mapping each variable to its RResult's Output. -/
def outputRVector (p : ParamDelta) : List (ℕ × Vec) :=
  p.map fun vr => (vr.1, vr.2.output)

/-- Modelled from the spec (§6, the autofunc.RBatcher collaborator is
external): `BatchR(seed, input, n)` evaluates the batched function,
producing the value at the center (`Output`) and the forward-mode
directional derivative along the seed RVector (`ROutput`). -/
structure RBatcher where
  outputAt : Vec → ℕ → Vec
  directional : List (ℕ × Vec) → Vec → ℕ → Vec

/-- Translation of the output vector built by `Linearizer.LinearBatch`
(part_000 lines 68-77): `output.Output().Copy().Add(output.ROutput())`
where the batcher is seeded with `d.outputRVector()`; vector `Add` is
componentwise (linalg collaborator, modelled from the spec). -/
def linearBatchOutput (Batcher : RBatcher) (d : ParamDelta) (ins : Vec)
    (n : ℕ) : Vec :=
  List.zipWith (fun a b => a + b)
    (Batcher.outputAt ins n)
    (Batcher.directional (outputRVector d) ins n)

/-- The spec's description of the same value (§4.2): the first-order
Taylor expansion of the batched function around the center — center
output plus the directional derivative along the given seed. -/
def firstOrderTaylor (Batcher : RBatcher) (seed : List (ℕ × Vec))
    (ins : Vec) (n : ℕ) : Vec :=
  List.zipWith (fun a b => a + b)
    (Batcher.outputAt ins n)
    (Batcher.directional seed ins n)

/-! ## trainer (src/unnamed/part_001): Trainer.Train and cgSolver -/

/-- The Objective interface as used by the trainer file (its
`QuadHessian` takes direction, point and samples and also returns the
quadratic-model value). -/
structure SolverObjective where
  quadGrad : Vec → SampleSet → Vec
  quadHessian : Vec → Vec → SampleSet → Vec × ℚ
  objective : Vec → SampleSet → ℚ

/-- The Trainer configuration read by the solver: convergence criteria,
backtrack rate (0 meaning each default), and the total flattened length
of `Learner.Parameters()` (used to build the zero delta). -/
structure TrainerConfig where
  minK : ℚ
  kScale : ℚ
  epsilon : ℚ
  backtrackRate : ℚ
  paramLen : ℕ

/-- The mutable state of a `cgSolver`, after its lazy initialization. -/
structure CGState where
  solution : Vec
  residual : Vec
  projectedResidual : Vec
  residualMag2 : ℚ
  hessianProduct : Vec
  startObjective : ℚ
  quadValues : List ℚ
  justBacktracked : Bool
  backtrackCount : ℕ
  backtrackDeltas : List Vec
  backtrackValues : List ℚ

/-- Translation of `cgSolver.initializeIfNeeded` (part_001 lines
173-189): the solution starts from the warm start when present, else the
zero delta; the residual is `-QuadGrad(solution)`; the search direction
is a copy of the residual; `|r|²` is cached; the initial curvature
product is computed (its quadratic value is only logged, not recorded);
`startObjective` is the true objective at `ConstParamDelta{}` (the zero
displacement). -/
def cgInit (obj : SolverObjective) (samples : SampleSet) (paramLen : ℕ)
    (warmStart : Option Vec) : CGState :=
  let solution := warmStart.getD (zeroDelta paramLen)
  let residual := scaleVec (-1) (obj.quadGrad solution samples)
  let projectedResidual := residual
  let hp := obj.quadHessian projectedResidual solution samples
  { solution := solution
    residual := residual
    projectedResidual := projectedResidual
    residualMag2 := magSquared residual
    hessianProduct := hp.1
    startObjective := obj.objective (zeroDelta paramLen) samples
    quadValues := []
    justBacktracked := false
    backtrackCount := 0
    backtrackDeltas := []
    backtrackValues := [] }

/-- Translation of `cgSolver.converging` (part_001 lines 191-217),
including the float64 semantics of the final division (a zero
`currentImprovement` yields NaN or ±Inf, compared false or true
accordingly). -/
def converging (cfg : TrainerConfig) (quadValues : List ℚ)
    (startObjective : ℚ) : Bool :=
  if quadValues.length < 2 then false
  else if startObjective < quadValues.getD (quadValues.length - 1) 0 then false
  else
    let kScale := if cfg.kScale = 0 then 1/10 else cfg.kScale
    let minK := if cfg.minK = 0 then 10 else cfg.minK
    let eps := if cfg.epsilon = 0 then 1/2000 else cfg.epsilon
    let k : ℤ := goTrunc (max minK (kScale * (quadValues.length : ℚ)))
    if (quadValues.length : ℤ) ≤ k then false
    else
      let currentImprovement :=
        quadValues.getD (quadValues.length - 1) 0 - startObjective
      let oldImprovement :=
        quadValues.getD (quadValues.length - 1 - k.toNat) 0 - startObjective
      (gfDiv (currentImprovement - oldImprovement) currentImprovement).ltq
        ((k : ℚ) * eps)

/-- The `for int(math.Pow(btRate, count)) <= doneIters` loop of
`cgSolver.updateBacktracking`, with explicit fuel (the Go loop terminates
for every rate above 1; the caller passes ample fuel for the default rate
1.3). -/
def advanceBT (btRate : ℚ) (doneIters : ℤ) : ℕ → ℕ → ℕ
  | 0, count => count
  | fuel + 1, count =>
    if goTrunc (btRate ^ count) ≤ doneIters then
      advanceBT btRate doneIters fuel (count + 1)
    else count

/-- Translation of `cgSolver.updateBacktracking` (part_001 lines
219-237): when the iteration count reaches `int(btRate^backtrackCount)`,
advance the exponent past the count and record a checkpoint (a copy of
the current solution and its true objective value), marking
`justBacktracked`. -/
def updateBacktracking (cfg : TrainerConfig) (obj : SolverObjective)
    (samples : SampleSet) (st : CGState) : CGState :=
  let doneIters := st.quadValues.length
  let btRate := if cfg.backtrackRate = 0 then 13/10 else cfg.backtrackRate
  if (doneIters : ℤ) < goTrunc (btRate ^ st.backtrackCount) then st
  else
    let count := advanceBT btRate (doneIters : ℤ) (4 * doneIters + 8) st.backtrackCount
    { st with
      backtrackCount := count
      backtrackDeltas := st.backtrackDeltas ++ [st.solution]
      backtrackValues := st.backtrackValues ++ [obj.objective st.solution samples]
      justBacktracked := true }

/-- Translation of `cgSolver.Step` after initialization (part_001 lines
114-153): the degenerate check, then the CG update (step size, solution,
residual, beta, new direction, new curvature product and quadratic
value), the convergence check and the backtracking policy. Returns the
Go function's boolean (continue?) and the state. -/
def cgStepCore (cfg : TrainerConfig) (obj : SolverObjective)
    (samples : SampleSet) (st : CGState) : Bool × CGState :=
  let projHessianMag := dotVec st.projectedResidual st.hessianProduct
  if projHessianMag = 0 ∨ st.residualMag2 = 0 then (false, st)
  else
    let stepSize := st.residualMag2 / projHessianMag
    let solution := addDelta st.solution st.projectedResidual stepSize
    let oldRMag2 := st.residualMag2
    let residual := addDelta st.residual st.hessianProduct (-stepSize)
    let residualMag2 := magSquared residual
    let beta := residualMag2 / oldRMag2
    let projectedResidual := addDelta (scaleVec beta st.projectedResidual) residual 1
    let hp := obj.quadHessian projectedResidual solution samples
    let quadValues := st.quadValues ++ [hp.2]
    let st1 : CGState :=
      { st with
        justBacktracked := false
        solution := solution
        residual := residual
        residualMag2 := residualMag2
        projectedResidual := projectedResidual
        hessianProduct := hp.1
        quadValues := quadValues }
    if converging cfg quadValues st.startObjective then (false, st1)
    else (true, updateBacktracking cfg obj samples st1)

/-- The scan inside `cgSolver.Best`: the running best is seeded by the
first entry (`i == 0`) and replaced only on a strictly smaller value. -/
def bestScanAux : List (Vec × ℚ) → Vec × ℚ → Vec × ℚ
  | [], best => best
  | p :: rest, best => bestScanAux rest (if p.2 < best.2 then p else best)

/-- The full scan of `cgSolver.Best` over the recorded checkpoints
(part_001 lines 163-170); `none` when there is no checkpoint at all
(Go would return a nil delta). -/
def bestScan (backtrackDeltas : List Vec) (backtrackValues : List ℚ) :
    Option Vec :=
  match List.zip backtrackDeltas backtrackValues with
  | [] => none
  | p :: rest => some (bestScanAux rest p).1

/-- Translation of `cgSolver.Best` (part_001 lines 155-171): unless a
checkpoint was just taken, append one for the current solution (with its
true objective value), then scan all checkpoints for the lowest value.
Returns the chosen delta and the updated solver state. -/
def cgBest (obj : SolverObjective) (samples : SampleSet) (st : CGState) :
    Option Vec × CGState :=
  let st' :=
    if st.justBacktracked then st
    else
      { st with
        backtrackDeltas := st.backtrackDeltas ++ [st.solution]
        backtrackValues := st.backtrackValues ++ [obj.objective st.solution samples]
        justBacktracked := true }
  (bestScan st'.backtrackDeltas st'.backtrackValues, st')

/-- The outcome of one mini-batch iteration of `Trainer.Train`'s inner
loop: an early return on the pre-batch cancellation poll, an early
return on a poll inside the CG loop, fuel exhaustion of the model's
bounded CG loop, or completion carrying `Best()`'s delta, the final
solver state and the next poll index. -/
inductive BatchResult where
  | stoppedBeforeBatch : BatchResult
  | stoppedInCG : BatchResult
  | outOfFuel : BatchResult
  | completed (useDelta : Option Vec) (finalState : CGState) (nextPoll : ℕ) : BatchResult

/-- The `for solver.Step() { if t.UI.ShouldStop() { return } }` loop of
`Trainer.Train` (part_001 lines 81-85): run a CG step; when it asks to
continue, poll the cancellation signal (`ui` gives the successive poll
results) and either return (flag true) or keep looping. Fuel bounds the
model's recursion; `none` means the loop was still running. -/
def runCGLoop (cfg : TrainerConfig) (obj : SolverObjective)
    (samples : SampleSet) (ui : ℕ → Bool) :
    ℕ → CGState → ℕ → Option (CGState × ℕ × Bool)
  | 0, _, _ => none
  | fuel + 1, st, poll =>
    let r := cgStepCore cfg obj samples st
    if r.1 then
      if ui poll then some (r.2, poll + 1, true)
      else runCGLoop cfg obj samples ui fuel r.2 (poll + 1)
    else some (r.2, poll, false)

/-- Translation of one iteration of `Trainer.Train`'s mini-batch loop
(part_001 lines 62-88): poll the cancellation signal (return if set),
build the solver on the fresh objective with the carried-over warm
start, run the CG loop (returning if a poll fires inside it), then take
`useDelta := solver.Best()`, keep `lastSolution = solver.Solution`, and
commit via `Learner.Adjust`. Sample shuffling/subsetting is the external
sample-set collaborator; the mini-batch arrives here already built. -/
def runMiniBatch (cfg : TrainerConfig) (obj : SolverObjective)
    (samples : SampleSet) (ui : ℕ → Bool) (warmStart : Option Vec)
    (poll : ℕ) (fuel : ℕ) : BatchResult :=
  if ui poll then BatchResult.stoppedBeforeBatch
  else
    match runCGLoop cfg obj samples ui fuel
        (cgInit obj samples cfg.paramLen warmStart) (poll + 1) with
    | none => BatchResult.outOfFuel
    | some (_, _, true) => BatchResult.stoppedInCG
    | some (st, p, false) =>
      let b := cgBest obj samples st
      BatchResult.completed b.1 b.2 p

/-- The sequence of mini-batches processed by `Trainer.Train` (part_001
lines 53-91): each completed batch records the `Adjust` call's arguments
`(useDelta, lastSolution)` and threads `lastSolution = solver.Solution`
into the next batch's warm start; a cancellation return halts the whole
run (boolean result) with no further commits. `mkObj` stands for the
per-batch `Learner.MakeObjective()` call. -/
def trainSeq (cfg : TrainerConfig) (mkObj : ℕ → SolverObjective)
    (ui : ℕ → Bool) (fuel : ℕ) :
    List SampleSet → Option Vec → ℕ → ℕ → List (Option Vec × Vec) × Bool
  | [], _, _, _ => ([], false)
  | samples :: rest, warmStart, poll, idx =>
    match runMiniBatch cfg (mkObj idx) samples ui warmStart poll fuel with
    | BatchResult.stoppedBeforeBatch => ([], true)
    | BatchResult.stoppedInCG => ([], true)
    | BatchResult.outOfFuel => ([], false)
    | BatchResult.completed useDelta st p =>
      let t := trainSeq cfg mkObj ui fuel rest (some st.solution) p (idx + 1)
      ((useDelta, st.solution) :: t.1, t.2)

/-! ## Concrete instances used by witnesses and counterexamples -/

/-- A sample set with one sample. -/
def exSample : SampleSet := { len := 1, tag := 0 }

/-- A Trainer configuration leaving every knob at its zero value, so all
defaults of part_001 apply. -/
def cfgDefault : TrainerConfig :=
  { minK := 0, kScale := 0, epsilon := 0, backtrackRate := 0, paramLen := 0 }

/-- A trivial solver objective over an empty parameter set. -/
def trivialSolverObjective : SolverObjective :=
  { quadGrad := fun _ _ => [], quadHessian := fun _ _ _ => ([], 0),
    objective := fun _ _ => 0 }

/-- An initialized solver state with empty vectors and zero residual. -/
def emptyState : CGState :=
  { solution := [], residual := [], projectedResidual := [],
    residualMag2 := 0, hessianProduct := [], startObjective := 0,
    quadValues := [], justBacktracked := false, backtrackCount := 0,
    backtrackDeltas := [], backtrackValues := [] }

/-- A learner-side objective whose true cost distinguishes the proposed
delta from the center: 5 at the delta `[[1]]`, 10 elsewhere (in
particular at the zero delta). -/
def c1Objective : Objective :=
  { quad := fun _ _ => 0, quadGrad := fun d _ => d,
    quadHessian := fun d _ => d,
    objective := fun d _ => if d = [[1]] then 5 else 10 }

/-- The identically-zero learner-side objective. -/
def zObjective : Objective :=
  { quad := fun _ _ => 0, quadGrad := fun _ _ => [[0]],
    quadHessian := fun _ _ => [[0]], objective := fun _ _ => 0 }

/-- A learner-side objective with `Quad = 1` and true cost 0 everywhere,
so the trust denominator is 1 and the computed ratio is the finite 0. -/
def c6aObjective : Objective :=
  { quad := fun _ _ => 1, quadGrad := fun d _ => d,
    quadHessian := fun d _ => d, objective := fun _ _ => 0 }

/-- A learner-side objective with `Quad = 0` and true cost 0 everywhere,
so the computed trust ratio is `0 / 0 = NaN`. -/
def c6bObjective : Objective :=
  { quad := fun _ _ => 0, quadGrad := fun d _ => d,
    quadHessian := fun d _ => d, objective := fun _ _ => 0 }

/-! ## Helper lemmas -/

/-- A float64 comparison fact: a value strictly above 3/4 is not strictly
below 1/4 (NaN compares false on both sides, ±Inf on one). -/
lemma GF.gtq_imp_ltq_false (g : GF) (h : g.gtq (3/4) = true) :
    g.ltq (1/4) = false := by
  cases g with
  | fin a =>
    simp only [GF.gtq, decide_eq_true_eq] at h
    simp only [GF.ltq, decide_eq_false_iff_not, not_lt]
    linarith
  | pinfty => simp [GF.ltq]
  | ninfty => simp [GF.gtq] at h
  | nan => simp [GF.gtq] at h

/-- When the float64 comparison `a/b < r` (with its NaN/Inf cases) comes
out true and `r` is positive, the rational-convention quotient (where
`x / 0 = 0`) is also below `r`. -/
lemma gfDiv_ltq_imp_div_lt (a b r : ℚ) (hr : 0 < r)
    (h : (gfDiv a b).ltq r = true) : a / b < r := by
  unfold gfDiv at h
  by_cases hb : b = 0
  · rw [if_pos hb] at h
    by_cases ha : a = 0
    · rw [if_pos ha] at h
      simp [GF.ltq] at h
    · rw [if_neg ha] at h
      by_cases hpos : 0 < a
      · rw [if_pos hpos] at h
        simp [GF.ltq] at h
      · rw [hb, div_zero]
        exact hr
  · rw [if_neg hb] at h
    simpa [GF.ltq] using h

/-! ## Claims -/

/-- C9: for every parameter delta `d`, constant input batch and batch
size, `Linearizer.LinearBatch` returns a result whose output vector is
the batched function's output at the center plus its forward-mode
directional derivative seeded by `d`, i.e. the first-order Taylor
expansion of the function around the center evaluated at `d`. -/
theorem linearBatch_is_first_order_taylor :
    ∀ (Batcher : RBatcher) (d : ParamDelta) (ins : Vec) (n : ℕ),
      linearBatchOutput Batcher d ins n =
        firstOrderTaylor Batcher (outputRVector d) ins n := by
  intro Batcher d ins n
  rfl

/-- C7: whenever the curvature projection `p·Hp` or the cached residual
magnitude `|r|²` of an (initialized) solver state is exactly zero,
`cgSolver.Step` returns false, terminating CG without performing any
iteration update: the state is returned untouched, which is normal
termination, not an error. -/
theorem cgStep_degenerate_terminates (cfg : TrainerConfig)
    (obj : SolverObjective) (samples : SampleSet) (st : CGState)
    (h : dotVec st.projectedResidual st.hessianProduct = 0 ∨
      st.residualMag2 = 0) :
    cgStepCore cfg obj samples st = (false, st) := by
  rcases h with h | h
  · simp [cgStepCore, h]
  · simp [cgStepCore, h]

/-- Witness for C7: the empty initialized state has zero residual
magnitude, and stepping it terminates with the state unchanged. -/
theorem cgStep_degenerate_terminates_witness :
    cgStepCore cfgDefault trivialSolverObjective exSample emptyState =
      (false, emptyState) :=
  cgStep_degenerate_terminates cfgDefault trivialSolverObjective exSample
    emptyState (Or.inr rfl)

/-- C6: on `DampingLearner.Adjust`, if the computed trust ratio is below
0.25 the damping coefficient is multiplied by 3/2; if it is above 0.75
it is multiplied by 2/3; otherwise it is unchanged. And
`DampingLearner.MakeObjective` initializes the coefficient to 1 when it
is unset (zero). -/
theorem dampingAdjust_trust_branches (o : Objective) (c : ℚ)
    (delta : ConstParamDelta) (s : SampleSet) :
    ((trustValue o delta s).ltq (1/4) = true →
      dampingAdjustCoeff o c delta s = c * (3/2)) ∧
    ((trustValue o delta s).gtq (3/4) = true →
      dampingAdjustCoeff o c delta s = c * (2/3)) ∧
    ((trustValue o delta s).ltq (1/4) = false →
      (trustValue o delta s).gtq (3/4) = false →
      dampingAdjustCoeff o c delta s = c) ∧
    dampingMakeCoeff 0 = 1 := by
  refine ⟨?_, ?_, ?_, by simp [dampingMakeCoeff]⟩
  · intro h
    unfold dampingAdjustCoeff
    rw [if_pos h]
  · intro h
    unfold dampingAdjustCoeff
    rw [if_neg (by rw [GF.gtq_imp_ltq_false _ h]; exact Bool.false_ne_true), if_pos h]
  · intro h1 h2
    unfold dampingAdjustCoeff
    rw [if_neg (by rw [h1]; exact Bool.false_ne_true),
      if_neg (by rw [h2]; exact Bool.false_ne_true)]

/-- Witness for C6: with a denominator of 1 the computed trust ratio is
the finite 0 (so the coefficient grows by 3/2), and with a 0/0 ratio
(NaN) the coefficient is unchanged. -/
theorem dampingAdjust_trust_branches_witness :
    dampingAdjustCoeff c6aObjective 1 [] exSample = 1 * (3/2) ∧
    dampingAdjustCoeff c6bObjective 1 [] exSample = 1 := by
  constructor
  · exact (dampingAdjust_trust_branches c6aObjective 1 [] exSample).1
      (by norm_num [trustValue, adjustRealOffset, c6aObjective, gfDiv, GF.ltq])
  · exact (dampingAdjust_trust_branches c6bObjective 1 [] exSample).2.2.1
      (by norm_num [trustValue, adjustRealOffset, c6bObjective, gfDiv, GF.ltq])
      (by norm_num [trustValue, adjustRealOffset, c6bObjective, gfDiv, GF.gtq])

/-- C10: the damping coefficient never decreases across
`DampingLearner.Adjust` calls. Both numerator evaluations use the zero
delta, so the computed trust ratio is the finite 0 (and the coefficient
is multiplied by 3/2) whenever the quadratic value at the delta differs
from the true cost at the center, and NaN (coefficient unchanged) when
they are equal; hence for a nonnegative coefficient, Adjust never
shrinks it. -/
theorem dampingCoeff_never_decreases (o : Objective) (c : ℚ)
    (delta : ConstParamDelta) (s : SampleSet) (h : 0 ≤ c) :
    c ≤ dampingAdjustCoeff o c delta s ∧
    (o.quad delta s ≠ o.objective [] s →
      trustValue o delta s = GF.fin 0 ∧
      dampingAdjustCoeff o c delta s = c * (3/2)) ∧
    (o.quad delta s = o.objective [] s →
      trustValue o delta s = GF.nan ∧
      dampingAdjustCoeff o c delta s = c) := by
  have htv : trustValue o delta s =
      gfDiv 0 (o.quad delta s - o.objective [] s) := by
    simp only [trustValue, adjustRealOffset, sub_self]
  by_cases hq : o.quad delta s = o.objective [] s
  · have hnan : trustValue o delta s = GF.nan := by
      rw [htv, hq, sub_self]
      unfold gfDiv
      rw [if_pos rfl, if_pos rfl]
    have hadj : dampingAdjustCoeff o c delta s = c := by
      unfold dampingAdjustCoeff
      rw [hnan]
      rw [if_neg (by exact Bool.false_ne_true), if_neg (by exact Bool.false_ne_true)]
    exact ⟨hadj.ge, fun hne => absurd hq hne, fun _ => ⟨hnan, hadj⟩⟩
  · have hfin : trustValue o delta s = GF.fin 0 := by
      rw [htv]
      unfold gfDiv
      rw [if_neg (sub_ne_zero.mpr hq), zero_div]
    have hadj : dampingAdjustCoeff o c delta s = c * (3/2) := by
      unfold dampingAdjustCoeff
      rw [hfin]
      rw [if_pos (by simp only [GF.ltq, decide_eq_true_eq]; norm_num)]
    refine ⟨?_, fun _ => ⟨hfin, hadj⟩, fun heq => absurd heq hq⟩
    rw [hadj]
    linarith

/-- Witness for C10: starting from coefficient 1 (nonnegative), Adjust
does not decrease it. -/
theorem dampingCoeff_never_decreases_witness :
    (0:ℚ) ≤ 1 ∧ (1:ℚ) ≤ dampingAdjustCoeff c6aObjective 1 [] exSample :=
  ⟨by norm_num,
    (dampingCoeff_never_decreases c6aObjective 1 [] exSample (by norm_num)).1⟩

/-- C1 (evaluation at the failing input): `DampingLearner.Adjust`
computes its trust-ratio numerator term `realOffset` as the true cost at
the zero delta, not at the proposed delta: for the concrete objective
with cost 5 at the delta `[[1]]` and 10 at the center, the code's
`realOffset` is 10 (the center value), differing from the true cost at
the proposed step. -/
theorem adjust_realOffset_is_center_not_delta :
    adjustRealOffset c1Objective [[1]] exSample = 10 ∧
    c1Objective.objective [] exSample = 10 ∧
    c1Objective.objective [[1]] exSample = 5 ∧
    adjustRealOffset c1Objective [[1]] exSample ≠
      c1Objective.objective [[1]] exSample := by
  refine ⟨?_, ?_, ?_, ?_⟩ <;> norm_num [adjustRealOffset, c1Objective]

/-- C2 (evaluation at the failing input): `dampedObjective` never
multiplies by its `Coeff` field: with coefficient 2, one sample and
delta `[[1]]` over the zero wrapped objective, `Quad` adds `n‖δ‖² = 1`
(the claimed `λn‖δ‖²` is 2) and `QuadGrad`/`QuadHessian` add `2n·δ = [2]`
(the claimed `2λn·δ` is `[4]`). -/
theorem dampedObjective_ignores_coeff :
    (dampedObjective zObjective 2).quad [[1]] exSample = 1 ∧
    (2:ℚ) * (exSample.len : ℚ) * (1 * 1) = 2 ∧
    (1:ℚ) ≠ 2 ∧
    (dampedObjective zObjective 2).quadGrad [[1]] exSample = [[2]] ∧
    (dampedObjective zObjective 2).quadHessian [[1]] exSample = [[2]] ∧
    ([[(2:ℚ)]] : ConstParamDelta) ≠ [[4]] := by
  refine ⟨?_, ?_, ?_, ?_, ?_, ?_⟩ <;>
    norm_num [dampedObjective, zObjective, exSample]

/-- The cancellation signal that is always set. -/
def uiAlways : ℕ → Bool := fun _ => true

/-- C8: whenever the cancellation signal is true at the poll before a
mini-batch, `Trainer.Train` returns immediately
(`stoppedBeforeBatch`) and the run commits nothing; and whenever the CG
loop's post-iteration poll fires (`stoppedInCG`), the run likewise halts
with no commit — the in-progress mini-batch's delta is never passed to
`Learner.Adjust`. -/
theorem train_cancellation_no_commit (cfg : TrainerConfig)
    (mkObj : ℕ → SolverObjective) (ui : ℕ → Bool) (fuel : ℕ)
    (samples : SampleSet) (rest : List SampleSet) (warmStart : Option Vec)
    (poll : ℕ) (idx : ℕ) :
    (ui poll = true →
      runMiniBatch cfg (mkObj idx) samples ui warmStart poll fuel =
        BatchResult.stoppedBeforeBatch ∧
      trainSeq cfg mkObj ui fuel (samples :: rest) warmStart poll idx =
        ([], true)) ∧
    (runMiniBatch cfg (mkObj idx) samples ui warmStart poll fuel =
        BatchResult.stoppedInCG →
      trainSeq cfg mkObj ui fuel (samples :: rest) warmStart poll idx =
        ([], true)) := by
  constructor
  · intro h
    have h1 : runMiniBatch cfg (mkObj idx) samples ui warmStart poll fuel =
        BatchResult.stoppedBeforeBatch := by
      unfold runMiniBatch
      rw [if_pos h]
    refine ⟨h1, ?_⟩
    unfold trainSeq
    rw [h1]
  · intro h
    unfold trainSeq
    rw [h]

/-- Witness for C8: with the cancellation signal set, the one-batch run
stops before the batch and commits nothing. -/
theorem train_cancellation_no_commit_witness :
    runMiniBatch cfgDefault trivialSolverObjective exSample uiAlways none 0 1 =
      BatchResult.stoppedBeforeBatch ∧
    trainSeq cfgDefault (fun _ => trivialSolverObjective) uiAlways 1
      [exSample] none 0 0 = ([], true) :=
  (train_cancellation_no_commit cfgDefault (fun _ => trivialSolverObjective)
    uiAlways 1 exSample [] none 0 0).1 rfl

/-- The window size `k` computed by `cgSolver.converging` under the
default criteria: `int(math.Max(10, 0.1 * iterationCount))`. -/
def defaultK (n : ℕ) : ℤ :=
  goTrunc (max 10 ((1/10) * (n : ℚ)))

/-- Unfolding of `converging` for the all-defaults configuration. -/
lemma converging_default_unfold (qs : List ℚ) (so : ℚ) :
    converging cfgDefault qs so =
      if qs.length < 2 then false
      else if so < qs.getD (qs.length - 1) 0 then false
      else if (qs.length : ℤ) ≤ defaultK qs.length then false
      else (gfDiv ((qs.getD (qs.length - 1) 0 - so) -
            (qs.getD (qs.length - 1 - (defaultK qs.length).toNat) 0 - so))
            (qs.getD (qs.length - 1) 0 - so)).ltq
            ((defaultK qs.length : ℚ) * (1/2000)) := by
  simp only [converging, cfgDefault, defaultK]
  norm_num

/-- C4 (amended: "below the starting true objective" weakened to "at or
below", which is what the code's `>` guard enforces): under the default
criteria, the convergence test returns converged only when at least 2
quadratic values are recorded, the most recent quadratic value is at or
below the starting true objective, `k = int(max(10, 0.1·n))` satisfies
`k < n` (`n` the iteration count), and the windowed relative-improvement
quotient is below `k · 0.0005`; moreover for iteration counts below 10
the check never fires. -/
theorem converging_conditions (qs : List ℚ) (so : ℚ) :
    (converging cfgDefault qs so = true →
      2 ≤ qs.length ∧
      qs.getD (qs.length - 1) 0 ≤ so ∧
      defaultK qs.length < (qs.length : ℤ) ∧
      ((qs.getD (qs.length - 1) 0 - so) -
          (qs.getD (qs.length - 1 - (defaultK qs.length).toNat) 0 - so)) /
        (qs.getD (qs.length - 1) 0 - so) <
        (defaultK qs.length : ℚ) * (1/2000)) ∧
    (qs.length < 10 → converging cfgDefault qs so = false) := by
  constructor
  · intro h
    rw [converging_default_unfold] at h
    by_cases h2 : qs.length < 2
    · rw [if_pos h2] at h
      exact (Bool.false_ne_true h).elim
    · rw [if_neg h2] at h
      by_cases h3 : so < qs.getD (qs.length - 1) 0
      · rw [if_pos h3] at h
        exact (Bool.false_ne_true h).elim
      · rw [if_neg h3] at h
        by_cases h4 : (qs.length : ℤ) ≤ defaultK qs.length
        · rw [if_pos h4] at h
          exact (Bool.false_ne_true h).elim
        · rw [if_neg h4] at h
          have hk10 : (10:ℤ) ≤ defaultK qs.length := by
            unfold defaultK goTrunc
            have hmax : (10:ℚ) ≤ max 10 ((1/10) * (qs.length:ℚ)) :=
              le_max_left _ _
            rw [if_neg (by push_neg; linarith)]
            exact Int.le_floor.mpr (by push_cast; linarith)
          have hr : (0:ℚ) < (defaultK qs.length : ℚ) * (1/2000) := by
            have h10 : (0:ℚ) < (defaultK qs.length : ℚ) :=
              by exact_mod_cast lt_of_lt_of_le (by norm_num : (0:ℤ) < 10) hk10
            positivity
          exact ⟨Nat.le_of_not_lt h2, not_lt.mp h3, not_le.mp h4,
            gfDiv_ltq_imp_div_lt _ _ _ hr h⟩
  · intro hlen
    rw [converging_default_unfold]
    by_cases h2 : qs.length < 2
    · rw [if_pos h2]
    · rw [if_neg h2]
      by_cases h3 : so < qs.getD (qs.length - 1) 0
      · rw [if_pos h3]
      · rw [if_neg h3]
        have hk : defaultK qs.length = 10 := by
          unfold defaultK
          have hcast : (qs.length:ℚ) < 10 := by exact_mod_cast hlen
          have hle : (1/10) * (qs.length:ℚ) ≤ 10 := by linarith
          rw [max_eq_left hle]
          unfold goTrunc
          rw [if_neg (by norm_num)]
          norm_num
        rw [if_pos (by rw [hk]; omega)]

/-- Quadratic-value history for the C4 counterexample: eleven values
whose most recent entry exactly equals the starting objective 0 while
the entry one window back (index 0) is above it. -/
def c4Quads : List ℚ := [1, 0, 0, 0, 0, 0, 0, 0, 0, 0, 0]

/-- Counterexample to C4 as stated: with the default criteria, the test
reports convergence on `c4Quads` with starting objective 0 even though
the most recent quadratic value (0) is not below the starting objective
— the code only rejects values strictly above it, and the resulting
`-Inf` improvement quotient compares below the threshold. -/
theorem converging_equal_start_counterexample :
    converging cfgDefault c4Quads 0 = true ∧
    ¬(c4Quads.getD (c4Quads.length - 1) 0 < 0) := by
  have e1 : c4Quads.length = 11 := rfl
  have ek : defaultK 11 = 10 := by
    norm_num [defaultK, goTrunc]
  have e2 : c4Quads.getD (11 - 1) 0 = 0 := by
    norm_num [c4Quads, List.getD]
  have e3 : c4Quads.getD (11 - 1 - (defaultK 11).toNat) 0 = 1 := by
    rw [ek]
    norm_num [c4Quads, List.getD, Int.toNat_ofNat]
  constructor
  · rw [converging_default_unfold, e1, e2, e3, ek]
    norm_num [gfDiv, GF.ltq]
  · rw [e1, e2]
    norm_num

/-- Quadratic-value history for the C4 witness: the last value is
strictly below the starting objective and the improvement over the
10-wide window is relatively tiny, so the test genuinely converges. -/
def c4WitnessQuads : List ℚ := [-999/1000, 0, 0, 0, 0, 0, 0, 0, 0, 0, -1]

/-- Witness for C4 (amended): a run on which the test reports
convergence, satisfying all four conditions, and a short history on
which it never fires. -/
theorem converging_conditions_witness :
    (2 ≤ c4WitnessQuads.length ∧
     c4WitnessQuads.getD (c4WitnessQuads.length - 1) 0 ≤ 0 ∧
     defaultK c4WitnessQuads.length < (c4WitnessQuads.length : ℤ) ∧
     ((c4WitnessQuads.getD (c4WitnessQuads.length - 1) 0 - 0) -
         (c4WitnessQuads.getD
             (c4WitnessQuads.length - 1 - (defaultK c4WitnessQuads.length).toNat) 0 - 0)) /
       (c4WitnessQuads.getD (c4WitnessQuads.length - 1) 0 - 0) <
       (defaultK c4WitnessQuads.length : ℚ) * (1/2000)) ∧
    converging cfgDefault [0] 0 = false := by
  constructor
  · exact (converging_conditions c4WitnessQuads 0).1 (by
      have ek : defaultK 11 = 10 := by norm_num [defaultK, goTrunc]
      have e2 : c4WitnessQuads.getD (11 - 1) 0 = -1 := by
        norm_num [c4WitnessQuads, List.getD]
      have e3 : c4WitnessQuads.getD (11 - 1 - (defaultK 11).toNat) 0 = -999/1000 := by
        rw [ek]
        norm_num [c4WitnessQuads, List.getD, Int.toNat_ofNat]
      rw [converging_default_unfold, show c4WitnessQuads.length = 11 from rfl,
        e2, e3, ek]
      norm_num [gfDiv, GF.ltq])
  · exact (converging_conditions [0] 0).2 (by norm_num)

/-- Indexing a zip of two lists is indexing the components. -/
lemma zip_getD (as : List Vec) (bs : List ℚ) (i : ℕ)
    (h : i < (List.zip as bs).length) :
    (List.zip as bs).getD i ([], 0) = (as.getD i [], bs.getD i 0) := by
  induction as generalizing bs i with
  | nil => simp at h
  | cons a as ih =>
    cases bs with
    | nil => simp at h
    | cons b bs =>
      cases i with
      | zero => simp
      | succ i' =>
        rw [List.zip_cons_cons, List.getD_cons_succ, List.getD_cons_succ,
          List.getD_cons_succ]
        exact ih bs i' (by simpa using h)

/-- A list whose `getLast?` is `some v` is nonempty and has `v` at its
final index. -/
lemma getLast?_toGetD (xs : List Vec) (v : Vec) (h : xs.getLast? = some v) :
    0 < xs.length ∧ xs.getD (xs.length - 1) [] = v := by
  induction xs with
  | nil => simp at h
  | cons a xs ih =>
    cases xs with
    | nil =>
      simp only [List.getLast?_singleton, Option.some.injEq] at h
      simp [h]
    | cons b xs =>
      rw [List.getLast?_cons_cons] at h
      obtain ⟨hpos, hget⟩ := ih h
      refine ⟨by simp, ?_⟩
      simp only [List.length_cons]
      rw [show xs.length + 1 + 1 - 1 = xs.length + 1 from rfl,
        List.getD_cons_succ]
      simpa using hget

/-- The element appended at the end of a list sits at index `length`. -/
lemma getD_append_self {α : Type} (xs : List α) (y d : α) :
    (xs ++ [y]).getD xs.length d = y := by
  rw [List.getD_append_right _ _ _ _ (le_refl xs.length)]
  simp

/-- The scan of `cgSolver.Best` returns the first entry achieving the
minimum value among the seed and the remaining entries: there is an
index `i` holding the result, every entry's value is at least the
result's, and every entry before `i` is strictly larger. -/
lemma bestScanAux_spec (l : List (Vec × ℚ)) (best : Vec × ℚ) :
    ∃ i, i < (best :: l).length ∧
      (best :: l).getD i ([], 0) = bestScanAux l best ∧
      (∀ j, j < (best :: l).length →
        (bestScanAux l best).2 ≤ ((best :: l).getD j ([], 0)).2) ∧
      (∀ j, j < i → (bestScanAux l best).2 < ((best :: l).getD j ([], 0)).2) := by
  induction l generalizing best with
  | nil =>
    refine ⟨0, by simp, by simp [bestScanAux], ?_,
      fun j hj => absurd hj (Nat.not_lt_zero j)⟩
    intro j hj
    have hj0 : j = 0 := Nat.lt_one_iff.mp (by simpa using hj)
    subst hj0
    simp [bestScanAux]
  | cons p rest ih =>
    by_cases hp : p.2 < best.2
    · obtain ⟨i', hi', hget, hall, hlt⟩ := ih p
      have hbsa : bestScanAux (p :: rest) best = bestScanAux rest p := by
        simp [bestScanAux, if_pos hp]
      have h0le : (bestScanAux rest p).2 ≤ p.2 := by
        simpa using hall 0 (by simp)
      refine ⟨i' + 1, ?_, ?_, ?_, ?_⟩
      · simp only [List.length_cons] at hi' ⊢
        omega
      · rw [hbsa, List.getD_cons_succ]
        exact hget
      · intro j hj
        rw [hbsa]
        cases j with
        | zero =>
          rw [List.getD_cons_zero]
          exact le_trans h0le (le_of_lt hp)
        | succ j' =>
          rw [List.getD_cons_succ]
          refine hall j' ?_
          simp only [List.length_cons] at hj ⊢
          omega
      · intro j hj
        rw [hbsa]
        cases j with
        | zero =>
          rw [List.getD_cons_zero]
          exact lt_of_le_of_lt h0le hp
        | succ j' =>
          rw [List.getD_cons_succ]
          exact hlt j' (Nat.lt_of_succ_lt_succ hj)
    · obtain ⟨i', hi', hget, hall, hlt⟩ := ih best
      have hbsa : bestScanAux (p :: rest) best = bestScanAux rest best := by
        simp [bestScanAux, if_neg hp]
      have hbp : best.2 ≤ p.2 := le_of_not_lt hp
      have h0le : (bestScanAux rest best).2 ≤ best.2 := by
        simpa using hall 0 (by simp)
      cases i' with
      | zero =>
        have hr : bestScanAux rest best = best := by
          simpa using hget.symm
        refine ⟨0, by simp, ?_, ?_, fun j hj => absurd hj (Nat.not_lt_zero j)⟩
        · rw [hbsa, List.getD_cons_zero, hr]
        · intro j hj
          rw [hbsa]
          cases j with
          | zero =>
            rw [List.getD_cons_zero]
            exact h0le
          | succ j' =>
            rw [List.getD_cons_succ]
            cases j' with
            | zero =>
              rw [List.getD_cons_zero, hr]
              exact hbp
            | succ j'' =>
              rw [List.getD_cons_succ]
              have h5 := hall (j'' + 1) (by
                simp only [List.length_cons] at hj ⊢
                omega)
              rw [List.getD_cons_succ] at h5
              exact h5
      | succ k =>
        refine ⟨k + 2, ?_, ?_, ?_, ?_⟩
        · simp only [List.length_cons] at hi' ⊢
          omega
        · rw [hbsa, List.getD_cons_succ, List.getD_cons_succ]
          rw [List.getD_cons_succ] at hget
          exact hget
        · intro j hj
          rw [hbsa]
          cases j with
          | zero =>
            rw [List.getD_cons_zero]
            exact h0le
          | succ j' =>
            rw [List.getD_cons_succ]
            cases j' with
            | zero =>
              rw [List.getD_cons_zero]
              exact le_trans h0le hbp
            | succ j'' =>
              rw [List.getD_cons_succ]
              have h5 := hall (j'' + 1) (by
                simp only [List.length_cons] at hj ⊢
                omega)
              rw [List.getD_cons_succ] at h5
              exact h5
        · intro j hj
          rw [hbsa]
          have hlt0 : (bestScanAux rest best).2 < best.2 := by
            have h6 := hlt 0 (Nat.succ_pos k)
            rwa [List.getD_cons_zero] at h6
          cases j with
          | zero =>
            rw [List.getD_cons_zero]
            exact hlt0
          | succ j' =>
            rw [List.getD_cons_succ]
            cases j' with
            | zero =>
              rw [List.getD_cons_zero]
              exact lt_of_lt_of_le hlt0 hbp
            | succ j'' =>
              rw [List.getD_cons_succ]
              have h5 := hlt (j'' + 1) (by omega)
              rw [List.getD_cons_succ] at h5
              exact h5

/-- Specification of `bestScan` over aligned checkpoint lists whose
values record the true objective of their deltas: it returns the delta
of the first checkpoint achieving the minimum recorded value. -/
lemma bestScan_spec (obj : SolverObjective) (samples : SampleSet)
    (ds : List Vec) (vs : List ℚ)
    (hlen : ds.length = vs.length)
    (hcons : ∀ i, i < vs.length →
      vs.getD i 0 = obj.objective (ds.getD i []) samples)
    (hpos : 0 < vs.length) :
    ∃ d, bestScan ds vs = some d ∧
      ∃ i, i < vs.length ∧ ds.getD i [] = d ∧
        (∀ j, j < vs.length → obj.objective d samples ≤ vs.getD j 0) ∧
        ∀ j, j < i → obj.objective d samples < vs.getD j 0 := by
  have hzlen : (List.zip ds vs).length = vs.length := by
    rw [List.length_zip ds vs, hlen, min_self]
  cases hL : List.zip ds vs with
  | nil =>
    rw [hL] at hzlen
    simp at hzlen
    omega
  | cons p rest =>
    obtain ⟨i, hi, hget, hall, hlt⟩ := bestScanAux_spec rest p
    have hbs : bestScan ds vs = some (bestScanAux rest p).1 := by
      unfold bestScan
      rw [hL]
    have hiv : i < vs.length := by
      rw [← hzlen, hL]
      exact hi
    have hgetL : (List.zip ds vs).getD i ([], 0) = bestScanAux rest p := by
      rw [hL]
      exact hget
    have hzip_i := zip_getD ds vs i (by rw [hL]; exact hi)
    have hri : bestScanAux rest p = (ds.getD i [], vs.getD i 0) := by
      rw [← hgetL, hzip_i]
    have hval : (bestScanAux rest p).2 =
        obj.objective (bestScanAux rest p).1 samples := by
      rw [hri]
      exact hcons i hiv
    refine ⟨(bestScanAux rest p).1, hbs, i, hiv, by rw [hri], ?_, ?_⟩
    · intro j hj
      have hjz : j < (p :: rest).length := by
        rw [← hL, hzlen]
        exact hj
      have h5 := hall j hjz
      have hzip_j := zip_getD ds vs j (by rw [hL]; exact hjz)
      rw [← hL, hzip_j] at h5
      rw [← hval]
      exact h5
    · intro j hj
      have h5 := hlt j hj
      have hjz : j < (p :: rest).length := lt_trans hj hi
      have hzip_j := zip_getD ds vs j (by rw [hL]; exact hjz)
      rw [← hL, hzip_j] at h5
      rw [← hval]
      exact h5

/-- C5: `Best()` first appends one checkpoint for the current solution
unless a checkpoint was just taken in the same step, then returns the
recorded checkpoint with the lowest true-objective value, ties broken in
favor of the earliest checkpoint; consequently the true-objective value
of the returned delta is at most the true-objective value of the final
CG iterate. The hypotheses state the run invariants of the checkpoint
lists: aligned lengths, each recorded value is the true objective of its
delta, and a just-taken checkpoint is the current solution. -/
theorem best_returns_min_checkpoint (obj : SolverObjective)
    (samples : SampleSet) (st : CGState)
    (hlen : st.backtrackDeltas.length = st.backtrackValues.length)
    (hcons : ∀ i, i < st.backtrackValues.length →
      st.backtrackValues.getD i 0 =
        obj.objective (st.backtrackDeltas.getD i []) samples)
    (hjb : st.justBacktracked = true →
      st.backtrackDeltas.getLast? = some st.solution) :
    ∃ d, (cgBest obj samples st).1 = some d ∧
      obj.objective d samples ≤ obj.objective st.solution samples ∧
      ((cgBest obj samples st).2.backtrackDeltas =
        if st.justBacktracked then st.backtrackDeltas
        else st.backtrackDeltas ++ [st.solution]) ∧
      ∃ i, i < (cgBest obj samples st).2.backtrackValues.length ∧
        (cgBest obj samples st).2.backtrackDeltas.getD i [] = d ∧
        (∀ j, j < (cgBest obj samples st).2.backtrackValues.length →
          obj.objective d samples ≤
            (cgBest obj samples st).2.backtrackValues.getD j 0) ∧
        ∀ j, j < i →
          obj.objective d samples <
            (cgBest obj samples st).2.backtrackValues.getD j 0 := by
  by_cases hb : st.justBacktracked
  · have hcgb : cgBest obj samples st =
        (bestScan st.backtrackDeltas st.backtrackValues, st) := by
      unfold cgBest
      rw [if_pos hb]
    obtain ⟨hpos0, hlast⟩ := getLast?_toGetD _ _ (hjb hb)
    have hpos : 0 < st.backtrackValues.length := by omega
    obtain ⟨d, hbs, i, hi, hgd, hall, hlt⟩ :=
      bestScan_spec obj samples _ _ hlen hcons hpos
    have hjstar : st.backtrackDeltas.length - 1 < st.backtrackValues.length := by
      omega
    have hvj : st.backtrackValues.getD (st.backtrackDeltas.length - 1) 0 =
        obj.objective st.solution samples := by
      rw [hcons _ hjstar, hlast]
    have hle : obj.objective d samples ≤ obj.objective st.solution samples := by
      rw [← hvj]
      exact hall _ hjstar
    rw [hcgb]
    exact ⟨d, hbs, hle, by rw [if_pos hb], i, hi, hgd, hall, hlt⟩
  · have hcgb : cgBest obj samples st =
        (bestScan (st.backtrackDeltas ++ [st.solution])
          (st.backtrackValues ++ [obj.objective st.solution samples]),
         { st with
            backtrackDeltas := st.backtrackDeltas ++ [st.solution]
            backtrackValues :=
              st.backtrackValues ++ [obj.objective st.solution samples]
            justBacktracked := true }) := by
      unfold cgBest
      rw [if_neg hb]
    have hlen' : (st.backtrackDeltas ++ [st.solution]).length =
        (st.backtrackValues ++ [obj.objective st.solution samples]).length := by
      simp [hlen]
    have hcons' : ∀ i,
        i < (st.backtrackValues ++ [obj.objective st.solution samples]).length →
        (st.backtrackValues ++ [obj.objective st.solution samples]).getD i 0 =
          obj.objective
            ((st.backtrackDeltas ++ [st.solution]).getD i []) samples := by
      intro i hi
      simp only [List.length_append, List.length_cons, List.length_nil] at hi
      by_cases hiv : i < st.backtrackValues.length
      · rw [List.getD_append _ _ _ _ hiv,
          List.getD_append _ _ _ _ (by omega : i < st.backtrackDeltas.length)]
        exact hcons i hiv
      · have hieq : i = st.backtrackValues.length := by omega
        subst hieq
        rw [getD_append_self,
          show st.backtrackValues.length = st.backtrackDeltas.length from
            hlen.symm,
          getD_append_self]
    have hpos' :
        0 < (st.backtrackValues ++ [obj.objective st.solution samples]).length := by
      simp
    obtain ⟨d, hbs, i, hi, hgd, hall, hlt⟩ :=
      bestScan_spec obj samples _ _ hlen' hcons' hpos'
    have hvj : (st.backtrackValues ++
        [obj.objective st.solution samples]).getD st.backtrackValues.length 0 =
        obj.objective st.solution samples := getD_append_self _ _ _
    have hle : obj.objective d samples ≤ obj.objective st.solution samples := by
      rw [← hvj]
      exact hall _ (by simp)
    rw [hcgb]
    exact ⟨d, hbs, hle, by rw [if_neg hb], i, hi, hgd, hall, hlt⟩

/-- A solver objective whose true cost reads the first coordinate. -/
def c5Obj : SolverObjective :=
  { quadGrad := fun _ _ => [], quadHessian := fun _ _ _ => ([], 0),
    objective := fun d _ => d.headD 0 }

/-- A solver state with one recorded checkpoint `[1]` (value 1) and
current solution `[3]` (value 3), no checkpoint just taken. -/
def c5State : CGState :=
  { solution := [3], residual := [], projectedResidual := [],
    residualMag2 := 0, hessianProduct := [], startObjective := 0,
    quadValues := [], justBacktracked := false, backtrackCount := 0,
    backtrackDeltas := [[1]], backtrackValues := [1] }

/-- Witness for C5: on the concrete state the invariants hold and
`Best()` returns a delta whose value does not exceed the final
iterate's. -/
theorem best_returns_min_checkpoint_witness :
    ∃ d, (cgBest c5Obj exSample c5State).1 = some d ∧
      c5Obj.objective d exSample ≤
        c5Obj.objective c5State.solution exSample ∧
      ((cgBest c5Obj exSample c5State).2.backtrackDeltas =
        if c5State.justBacktracked then c5State.backtrackDeltas
        else c5State.backtrackDeltas ++ [c5State.solution]) ∧
      ∃ i, i < (cgBest c5Obj exSample c5State).2.backtrackValues.length ∧
        (cgBest c5Obj exSample c5State).2.backtrackDeltas.getD i [] = d ∧
        (∀ j, j < (cgBest c5Obj exSample c5State).2.backtrackValues.length →
          c5Obj.objective d exSample ≤
            (cgBest c5Obj exSample c5State).2.backtrackValues.getD j 0) ∧
        ∀ j, j < i →
          c5Obj.objective d exSample <
            (cgBest c5Obj exSample c5State).2.backtrackValues.getD j 0 :=
  best_returns_min_checkpoint c5Obj exSample c5State rfl
    (by
      intro i hi
      have hi0 : i = 0 := by
        simpa [c5State] using hi
      subst hi0
      rfl)
    (by
      intro h
      simp [c5State] at h)

/-- The cancellation signal that never fires. -/
def uiNever : ℕ → Bool := fun _ => false

/-- C3 (amended: the warm start is the previous mini-batch's final CG
solution `solver.Solution`, which `Train` stores into `lastSolution` —
not the `Best()` delta committed via `Adjust`): at CG initialization the
solution equals the warm start when present, else the zero delta over
the learner's parameters; the initial residual is `-QuadGrad(x₀)`; the
initial search direction equals that residual; and `startObjective` is
the true objective at the zero delta. The final conjunct is the Train
wiring: a completed mini-batch contributes the commit
`(useDelta, lastSolution)` and threads `lastSolution =
solver.Solution` into the next batch's warm start. -/
theorem cgInit_warm_start_and_baseline (obj : SolverObjective)
    (samples : SampleSet) (paramLen : ℕ) (d : Vec) (warmStart : Option Vec) :
    (cgInit obj samples paramLen (some d)).solution = d ∧
    (cgInit obj samples paramLen none).solution = zeroDelta paramLen ∧
    (cgInit obj samples paramLen warmStart).residual =
      scaleVec (-1)
        (obj.quadGrad ((cgInit obj samples paramLen warmStart).solution)
          samples) ∧
    (cgInit obj samples paramLen warmStart).projectedResidual =
      (cgInit obj samples paramLen warmStart).residual ∧
    (cgInit obj samples paramLen warmStart).residualMag2 =
      magSquared ((cgInit obj samples paramLen warmStart).residual) ∧
    (cgInit obj samples paramLen warmStart).startObjective =
      obj.objective (zeroDelta paramLen) samples ∧
    ∀ (cfg : TrainerConfig) (mkObj : ℕ → SolverObjective) (ui : ℕ → Bool)
      (fuel : ℕ) (s : SampleSet) (rest : List SampleSet) (ws : Option Vec)
      (poll idx : ℕ) (u : Option Vec) (st : CGState) (p : ℕ),
      runMiniBatch cfg (mkObj idx) s ui ws poll fuel =
          BatchResult.completed u st p →
      trainSeq cfg mkObj ui fuel (s :: rest) ws poll idx =
        ((u, st.solution) ::
            (trainSeq cfg mkObj ui fuel rest (some st.solution) p (idx + 1)).1,
          (trainSeq cfg mkObj ui fuel rest (some st.solution) p (idx + 1)).2) := by
  refine ⟨rfl, rfl, rfl, rfl, rfl, rfl, ?_⟩
  intro cfg mkObj ui fuel s rest ws poll idx u st p h
  conv_lhs => rw [trainSeq, h]

/-- The final solver state of a trivial one-iteration run over an empty
parameter set (used by the C3 witness). -/
def c3TrivialFinal : CGState :=
  { solution := [], residual := [], projectedResidual := [],
    residualMag2 := 0, hessianProduct := [], startObjective := 0,
    quadValues := [], justBacktracked := true, backtrackCount := 0,
    backtrackDeltas := [[]], backtrackValues := [0] }

/-- Witness for C3 (amended): on a trivial completed mini-batch the
training sequence records the commit and threads the final solution as
the next warm start. -/
theorem cgInit_warm_start_and_baseline_witness :
    trainSeq cfgDefault (fun _ => trivialSolverObjective) uiNever 1
        [exSample] none 0 0 =
      ((some [], c3TrivialFinal.solution) ::
          (trainSeq cfgDefault (fun _ => trivialSolverObjective) uiNever 1 []
            (some c3TrivialFinal.solution) 1 1).1,
        (trainSeq cfgDefault (fun _ => trivialSolverObjective) uiNever 1 []
          (some c3TrivialFinal.solution) 1 1).2) :=
  (cgInit_warm_start_and_baseline trivialSolverObjective exSample 0 [] none).2.2.2.2.2.2
    cfgDefault (fun _ => trivialSolverObjective) uiNever 1 exSample [] none 0 0
    (some []) c3TrivialFinal 1 rfl

/-- A two-parameter solver objective driving CG through two updates: the
quadratic model's true cost is best at the first iterate `[1,0]` (value
5), worse at the second `[2,1]` (value 7), and 10 elsewhere. -/
def c3Obj : SolverObjective :=
  { quadGrad := fun _ _ => [-1, 0],
    quadHessian := fun p _ _ =>
      (if p = [1, 0] then [1, -1] else if p = [1, 1] then [0, 1] else [0, 0], 0),
    objective := fun d _ =>
      if d = [1, 0] then 5 else if d = [2, 1] then 7 else 10 }

/-- The all-defaults configuration over two parameters. -/
def cfgC3 : TrainerConfig :=
  { minK := 0, kScale := 0, epsilon := 0, backtrackRate := 0, paramLen := 2 }

/-- The C3 run's state after initialization. -/
def c3St0 : CGState :=
  { solution := [0, 0], residual := [1, 0], projectedResidual := [1, 0],
    residualMag2 := 1, hessianProduct := [1, -1], startObjective := 10,
    quadValues := [], justBacktracked := false, backtrackCount := 0,
    backtrackDeltas := [], backtrackValues := [] }

/-- The C3 run's state after the first CG step. -/
def c3St1 : CGState :=
  { solution := [1, 0], residual := [0, 1], projectedResidual := [1, 1],
    residualMag2 := 1, hessianProduct := [0, 1], startObjective := 10,
    quadValues := [0], justBacktracked := true, backtrackCount := 3,
    backtrackDeltas := [[1, 0]], backtrackValues := [5] }

/-- The C3 run's state after the second CG step. -/
def c3St2 : CGState :=
  { solution := [2, 1], residual := [0, 0], projectedResidual := [0, 0],
    residualMag2 := 0, hessianProduct := [0, 0], startObjective := 10,
    quadValues := [0, 0], justBacktracked := true, backtrackCount := 5,
    backtrackDeltas := [[1, 0], [2, 1]], backtrackValues := [5, 7] }

lemma c3_init_eval : cgInit c3Obj exSample 2 none = c3St0 := by
  norm_num [cgInit, c3Obj, c3St0, zeroDelta, scaleVec, magSquared, dotVec,
    List.replicate]

lemma c3_step1_eval : cgStepCore cfgC3 c3Obj exSample c3St0 = (true, c3St1) := by
  norm_num [cgStepCore, c3Obj, cfgC3, c3St0, c3St1, dotVec, magSquared,
    addDelta, scaleVec, converging, updateBacktracking, advanceBT, goTrunc]

lemma c3_step2_eval : cgStepCore cfgC3 c3Obj exSample c3St1 = (true, c3St2) := by
  norm_num [cgStepCore, c3Obj, cfgC3, c3St1, c3St2, dotVec, magSquared,
    addDelta, scaleVec, converging, updateBacktracking, advanceBT, goTrunc,
    max_def]

lemma c3_step3_eval : cgStepCore cfgC3 c3Obj exSample c3St2 = (false, c3St2) := by
  norm_num [cgStepCore, c3St2, dotVec]

/-- One unfolding of the CG loop at successor fuel. -/
lemma runCGLoop_succ (cfg : TrainerConfig) (obj : SolverObjective)
    (samples : SampleSet) (ui : ℕ → Bool) (fuel : ℕ) (st : CGState)
    (poll : ℕ) :
    runCGLoop cfg obj samples ui (fuel + 1) st poll =
      if (cgStepCore cfg obj samples st).1 then
        if ui poll then some ((cgStepCore cfg obj samples st).2, poll + 1, true)
        else runCGLoop cfg obj samples ui fuel
          (cgStepCore cfg obj samples st).2 (poll + 1)
      else some ((cgStepCore cfg obj samples st).2, poll, false) := rfl

lemma c3_loop_eval :
    runCGLoop cfgC3 c3Obj exSample uiNever 5 c3St0 1 = some (c3St2, 3, false) := by
  show runCGLoop cfgC3 c3Obj exSample uiNever (4 + 1) c3St0 1 = some (c3St2, 3, false)
  rw [runCGLoop_succ, c3_step1_eval]
  simp only [uiNever, if_true, if_false, Bool.false_eq_true, ite_false]
  show runCGLoop cfgC3 c3Obj exSample uiNever (3 + 1) c3St1 2 = some (c3St2, 3, false)
  rw [runCGLoop_succ, c3_step2_eval]
  simp only [uiNever, Bool.false_eq_true, ite_false]
  show runCGLoop cfgC3 c3Obj exSample uiNever (2 + 1) c3St2 3 = some (c3St2, 3, false)
  rw [runCGLoop_succ, c3_step3_eval]
  rfl

lemma c3_best_eval : cgBest c3Obj exSample c3St2 = (some [1, 0], c3St2) := by
  norm_num [cgBest, c3St2, bestScan, bestScanAux]

lemma c3_batch_eval :
    runMiniBatch cfgC3 c3Obj exSample uiNever none 0 5 =
      BatchResult.completed (some [1, 0]) c3St2 3 := by
  unfold runMiniBatch
  rw [if_neg (by simp [uiNever])]
  rw [show cgInit c3Obj exSample cfgC3.paramLen none = c3St0 from c3_init_eval]
  rw [c3_loop_eval]
  simp only [c3_best_eval]

/-- The useDelta argument a completed mini-batch passes to
`Learner.Adjust`. -/
def batchUseDelta : BatchResult → Option (Option Vec)
  | BatchResult.completed u _ _ => some u
  | _ => none

/-- The final `solver.Solution` of a completed mini-batch — the value
`Trainer.Train` stores into `lastSolution` and hands to the next batch
as warm start. -/
def batchFinalSolution : BatchResult → Option Vec
  | BatchResult.completed _ st _ => some st.solution
  | _ => none

/-- Counterexample to C3 as stated: in the concrete run the committed
delta (`Best()`'s choice, `[1,0]`) differs from the final CG solution
(`[2,1]`), and it is the latter that initializes the next mini-batch's
solver — so the warm start does not equal the previous mini-batch's
accepted delta. -/
theorem warm_start_not_best_counterexample :
    batchUseDelta (runMiniBatch cfgC3 c3Obj exSample uiNever none 0 5) =
      some (some [1, 0]) ∧
    batchFinalSolution (runMiniBatch cfgC3 c3Obj exSample uiNever none 0 5) =
      some [2, 1] ∧
    (cgInit c3Obj exSample 2 (some [2, 1])).solution = [2, 1] ∧
    (some ([1, 0] : Vec) : Option Vec) ≠ some [2, 1] := by
  refine ⟨?_, ?_, rfl, by norm_num⟩
  · rw [c3_batch_eval]
    rfl
  · rw [c3_batch_eval]
    rfl
